import Mathlib

/-!
Shallow embedding of the emfdscore moral-analysis layer
(`emfdscore/moral_analysis.py`) and text-extraction layer
(`emfdscore/text_extraction.py`), together with theorems settling the
specification claims about them.

Score records (Python dicts from metric names to floats) are modelled as
association lists `List (String × ℚ)`; Python floats are modelled as
rationals.  Summaries (Python dicts with heterogeneous values) are
association lists over an inductive value type, kept in insertion order.
-/

namespace Emfdscore

/-- The canonical foundation order used throughout
`MoralFrameworkAnalyzer.get_moral_summary`. -/
def foundations : List String := ["care", "fairness", "loyalty", "authority", "sanctity"]

/-- Embeds `MoralFrameworkAnalyzer._categorize_score`: the if/elif chain
categorizing a score into strength levels. -/
def categorizeScore (score : ℚ) : String :=
  if score ≥ 15/100 then "very_high"
  else if score ≥ 10/100 then "high"
  else if score ≥ 5/100 then "moderate"
  else if score ≥ 1/100 then "low"
  else "very_low"

/-- Embeds `MoralFrameworkAnalyzer._interpret_moral_density`: the if/elif
chain interpreting the moral-to-nonmoral word ratio. -/
def interpretMoralDensity (ratio : ℚ) : String :=
  if ratio ≥ 1 then "very_high_moral_content"
  else if ratio ≥ 5/10 then "high_moral_content"
  else if ratio ≥ 2/10 then "moderate_moral_content"
  else if ratio ≥ 1/10 then "low_moral_content"
  else "very_low_moral_content"

/-- The sentiment-direction ternary in `get_moral_summary`:
`'positive' if v > 0 else 'negative' if v < 0 else 'neutral'`. -/
def sentimentDirection (v : ℚ) : String :=
  if v > 0 then "positive" else if v < 0 then "negative" else "neutral"

/-- The `prob_scores` dict built by `get_moral_summary`: for each foundation
in canonical order, its `{foundation}_p` entry of the score record, when
present. -/
def probScores (scores : List (String × ℚ)) : List (String × ℚ) :=
  foundations.filterMap (fun f => (List.lookup (f ++ "_p") scores).map (fun v => (f, v)))

/-- Embeds Python `max(items, key=lambda x: x[1])` on an association list:
`max` scans left to right and replaces the current best only on a strictly
greater key value, so the first maximal element wins.  Returns `none` on the
empty list (where Python `max` would raise, but `get_moral_summary` guards
with `if prob_scores:`). -/
def pyMaxBy (l : List (String × ℚ)) : Option (String × ℚ) :=
  match l with
  | [] => none
  | x :: xs => some (xs.foldl (fun acc y => if y.2 > acc.2 then y else acc) x)

/-- One per-foundation entry of the summary's `moral_foundations` dict.
Fields are optional because `get_moral_summary` only inserts the keys whose
source score keys are present. -/
structure FoundationSummary where
  probability : Option ℚ := none
  strength : Option String := none
  sentiment : Option ℚ := none
  sentiment_direction : Option String := none
  score : Option ℚ := none
deriving Repr, DecidableEq

/-- Values stored in the summary dict returned by `get_moral_summary`. -/
inductive SummaryValue where
  | str (s : String)
  | founds (m : List (String × FoundationSummary))
  | dominant (name : String) (probability : ℚ)
  | density (ratio : ℚ) (interpretation : String)
deriving Repr, DecidableEq

/-- The `moral_foundations` dict built in the `emfd` branch of
`get_moral_summary`: a foundation appears iff its `_p` or `_sent` key is in
the score record (`if foundation_summary:`), carrying exactly the derived
keys for the score keys present. -/
def emfdFoundations (scores : List (String × ℚ)) : List (String × FoundationSummary) :=
  foundations.filterMap (fun f =>
    let p := List.lookup (f ++ "_p") scores
    let s := List.lookup (f ++ "_sent") scores
    if p = none ∧ s = none then none
    else some (f, { probability := p, strength := p.map categorizeScore,
                    sentiment := s, sentiment_direction := s.map sentimentDirection }))

/-- The ten foundation keys handled in the `mfd`/`mfd2` branch of
`get_moral_summary`. -/
def mfdFoundationKeys : List String :=
  ["care.virtue", "fairness.virtue", "loyalty.virtue", "authority.virtue", "sanctity.virtue",
   "care.vice", "fairness.vice", "loyalty.vice", "authority.vice", "sanctity.vice"]

/-- The `moral_foundations` dict built in the `mfd`/`mfd2` branch of
`get_moral_summary`. -/
def mfdFoundations (scores : List (String × ℚ)) : List (String × FoundationSummary) :=
  mfdFoundationKeys.filterMap (fun f =>
    (List.lookup f scores).map (fun v => (f, { score := some v, strength := some (categorizeScore v) })))

/-- The optional `moral_density` entry of the summary, inserted when
`'moral_nonmoral_ratio' in scores`. -/
def densityEntry (scores : List (String × ℚ)) : List (String × SummaryValue) :=
  match List.lookup "moral_nonmoral_ratio" scores with
  | some r => [("moral_density", SummaryValue.density r (interpretMoralDensity r))]
  | none => []

/-- The optional `dominant_foundation` entry of the summary, inserted when
`prob_scores` is non-empty, holding Python `max(prob_scores.items(), key=...)`. -/
def dominantEntry (scores : List (String × ℚ)) : List (String × SummaryValue) :=
  match pyMaxBy (probScores scores) with
  | some (n, p) => [("dominant_foundation", SummaryValue.dominant n p)]
  | none => []

/-- Embeds `MoralFrameworkAnalyzer.get_moral_summary`.  The summary dict is
kept in Python insertion order: `dictionary_used` and `moral_foundations`
are inserted up front; the `emfd` branch may add `dominant_foundation` and
`moral_density`; the `mfd`/`mfd2` branch may add `moral_density`; any other
`dict_type` leaves the base summary untouched. -/
def getMoralSummary (scores : List (String × ℚ)) (dict_type : String) :
    List (String × SummaryValue) :=
  if dict_type = "emfd" then
    ("dictionary_used", SummaryValue.str dict_type)
      :: ("moral_foundations", SummaryValue.founds (emfdFoundations scores))
      :: (dominantEntry scores ++ densityEntry scores)
  else if dict_type = "mfd" ∨ dict_type = "mfd2" then
    ("dictionary_used", SummaryValue.str dict_type)
      :: ("moral_foundations", SummaryValue.founds (mfdFoundations scores))
      :: densityEntry scores
  else
    [("dictionary_used", SummaryValue.str dict_type),
     ("moral_foundations", SummaryValue.founds [])]

/-! ### `analyze_text` input validation (`MoralFrameworkAnalyzer.analyze_text`) -/

/-- The whitespace characters recognised by Python `str.strip()` on ASCII
text: space, tab, newline, carriage return, vertical tab, form feed. -/
def pyIsSpace (c : Char) : Bool :=
  c = ' ' ∨ c = '\t' ∨ c = '\n' ∨ c = '\r' ∨ c = '\x0b' ∨ c = '\x0c'

/-- Python `str.strip()` on a character list: drop whitespace from both
ends. -/
def pyStripList (l : List Char) : List Char :=
  ((l.dropWhile pyIsSpace).reverse.dropWhile pyIsSpace).reverse

/-- Python `str.strip()`. -/
def pyStrip (s : String) : String := ⟨pyStripList s.data⟩

/-- Errors surfaced by `analyze_text`: the `ValueError("Input text is
empty")` raised by the guard at the top of the function (the spec's
`InvalidInputError`), or an error propagated from the downstream scoring
pipeline (`score_docs`, external to this module), which the function logs
and re-raises unchanged. -/
inductive AnalysisError where
  | invalidInput
  | scoringFailure (msg : String)
deriving Repr, DecidableEq

/-- Embeds `MoralFrameworkAnalyzer.analyze_text`.  The guard
`if not text.strip(): raise ValueError(...)` runs before any dictionary-type
dispatch; the rest of the function (temp-file plumbing and the external
`score_docs` call) is abstracted as the `scorer` oracle, whose failures are
distinct from the empty-input error. -/
def analyzeText (scorer : String → String → Except String (List (String × ℚ)))
    (text dict_type : String) : Except AnalysisError (List (String × ℚ)) :=
  if pyStrip text = "" then Except.error AnalysisError.invalidInput
  else
    match scorer text dict_type with
    | Except.ok d => Except.ok d
    | Except.error m => Except.error (AnalysisError.scoringFailure m)

/-! ### Batch analysis (`MoralFrameworkAnalyzer.analyze_batch`) -/

/-- One slot of the list returned by `analyze_batch`: either the result
dict of a successful `analyze_file` call, or the error dict
`{'file_path': p, 'error': str(e), 'moral_scores': {}}` recorded when that
call raised. -/
inductive BatchEntry (α : Type) where
  | ok (result : α)
  | err (file_path : String) (error : String)
deriving Repr, DecidableEq

/-- Embeds `MoralFrameworkAnalyzer.analyze_batch`: iterate over the paths
in order, try the per-file analysis (abstracted as the `analyzeFile`
oracle, covering extraction, metadata and scoring), and on any exception
record an error entry in that slot and continue with the rest. -/
def analyzeBatch {α : Type} (analyzeFile : String → Except String α)
    (paths : List String) : List (BatchEntry α) :=
  paths.map (fun p =>
    match analyzeFile p with
    | Except.ok r => BatchEntry.ok r
    | Except.error e => BatchEntry.err p e)

/-! ### Text extraction (`emfdscore/text_extraction.py`) -/

/-- A registered extractor, as seen by `TextExtractionManager.extract_text`:
its `supports_file` predicate and its `extract` method, which either returns
text or raises (any exception is caught by the manager, which moves on). -/
structure Extractor where
  supports : String → Bool
  extract : String → Except String String

/-- Errors raised by `TextExtractionManager.extract_text`: the
`FileNotFoundError` for a missing path, or the final
`ValueError("No suitable extractor found...")` reached when no registered
extractor both supports the file and succeeds. -/
inductive ExtractionError where
  | fileNotFound (path : String)
  | noSuitableExtractor (path : String)
deriving Repr, DecidableEq

/-- The extractor loop of `TextExtractionManager.extract_text`: try each
registered extractor in order; one that supports the file and succeeds
returns; one that supports the file and raises is logged and skipped;
falling off the end raises the no-suitable-extractor error. -/
def extractTextLoop (extractors : List Extractor) (path : String) :
    Except ExtractionError String :=
  match extractors with
  | [] => Except.error (ExtractionError.noSuitableExtractor path)
  | e :: rest =>
    if e.supports path then
      match e.extract path with
      | Except.ok t => Except.ok t
      | Except.error _ => extractTextLoop rest path
    else extractTextLoop rest path

/-- Embeds `TextExtractionManager.extract_text`: the `os.path.exists` guard
(modelled by the `fsExists` oracle) raises `FileNotFoundError` first, then
the extractor loop runs. -/
def extractText (fsExists : String → Bool) (extractors : List Extractor)
    (path : String) : Except ExtractionError String :=
  if fsExists path then extractTextLoop extractors path
  else Except.error (ExtractionError.fileNotFound path)

/-- The fallback encodings `TxtExtractor.extract` tries after a
`UnicodeDecodeError` on the requested encoding. -/
def txtFallbackEncodings : List String := ["latin-1", "cp1252", "iso-8859-1"]

/-- The fallback loop of `TxtExtractor.extract`: try each encoding in order
against the file (reading modelled by the `read` oracle, whose errors are
decode failures); when all fail, raise `ValueError("Unable to decode...")`. -/
def tryEncodings (read : String → String → Except Unit String) (path : String) :
    List String → Except String String
  | [] => Except.error ("Unable to decode text file " ++ path)
  | enc :: rest =>
    match read path enc with
    | Except.ok t => Except.ok t
    | Except.error _ => tryEncodings read path rest

/-- Embeds `TxtExtractor.extract`: read with the requested encoding
(default utf-8); on a decode error, fall back to latin-1, cp1252,
iso-8859-1 in order before failing. -/
def txtExtract (read : String → String → Except Unit String)
    (path : String) (encoding : String) : Except String String :=
  match read path encoding with
  | Except.ok t => Except.ok t
  | Except.error _ => tryEncodings read path txtFallbackEncodings

/-! ### Moral/non-moral ratio (spec-modelled scorer fragment) -/

/-- Modelled from the spec: the bag-of-words scorer's matched-token count.
`score_docs` (`emfdscore/scoring.py`) is not under `src/`; per the spec,
scoring partitions the document's tokens into those present in the lexicon
and the rest. -/
def countMatched (lexicon : List String) (doc : List String) : Nat :=
  (doc.filter (fun t => lexicon.contains t)).length

/-- Modelled from the spec: the bag-of-words scorer's unmatched-token
count. -/
def countUnmatched (lexicon : List String) (doc : List String) : Nat :=
  (doc.filter (fun t => ¬ lexicon.contains t)).length

/-- Modelled from the spec: `moral_nonmoral_ratio = (count of matched
tokens) / (count of unmatched tokens)`, defined as 0 when the denominator
is 0 so the computation never divides by zero. -/
def moralNonmoralRatio (lexicon : List String) (doc : List String) : ℚ :=
  if countUnmatched lexicon doc = 0 then 0
  else (countMatched lexicon doc : ℚ) / (countUnmatched lexicon doc : ℚ)

/-- Numeric rank of the strength labels, used to state monotonicity of the
categorization. -/
def strengthRank (label : String) : Nat :=
  if label = "very_low" then 0
  else if label = "low" then 1
  else if label = "moderate" then 2
  else if label = "high" then 3
  else 4

/-- C4: `_categorize_score` is a monotonic total function partitioning
scores into exactly five bands at the stated thresholds: `very_high` iff
s ≥ 0.15, `high` iff 0.10 ≤ s < 0.15, `moderate` iff 0.05 ≤ s < 0.10,
`low` iff 0.01 ≤ s < 0.05, `very_low` iff s < 0.01 (so 0.05 maps to
`moderate` and 0.10 maps to `high`), and a larger score never gets a
strictly lower band. -/
theorem categorizeScore_bands (s t : ℚ) :
    (categorizeScore s = "very_high" ↔ 15/100 ≤ s)
    ∧ (categorizeScore s = "high" ↔ 10/100 ≤ s ∧ s < 15/100)
    ∧ (categorizeScore s = "moderate" ↔ 5/100 ≤ s ∧ s < 10/100)
    ∧ (categorizeScore s = "low" ↔ 1/100 ≤ s ∧ s < 5/100)
    ∧ (categorizeScore s = "very_low" ↔ s < 1/100)
    ∧ (s ≤ t → strengthRank (categorizeScore s) ≤ strengthRank (categorizeScore t)) := by
  refine ⟨?_, ?_, ?_, ?_, ?_, ?_⟩
  · unfold categorizeScore; split_ifs <;> simp_all <;> intros <;> linarith
  · unfold categorizeScore; split_ifs <;> simp_all <;> intros <;> linarith
  · unfold categorizeScore; split_ifs <;> simp_all <;> intros <;> linarith
  · unfold categorizeScore; split_ifs <;> simp_all <;> intros <;> linarith
  · unfold categorizeScore; split_ifs <;> simp_all <;> intros <;> linarith
  · intro hst
    unfold categorizeScore
    split_ifs <;> simp [strengthRank] <;> linarith

/-- C4 witness: 0.05 is categorized `moderate`, and the band rank is
monotone from 0.05 to 0.10. -/
theorem categorizeScore_bands_witness :
    categorizeScore (5/100) = "moderate"
    ∧ strengthRank (categorizeScore (5/100)) ≤ strengthRank (categorizeScore (10/100)) :=
  ⟨((categorizeScore_bands (5/100) (10/100)).2.2.1).2 (by norm_num),
   (categorizeScore_bands (5/100) (10/100)).2.2.2.2.2 (by norm_num)⟩

/-- C8: `_interpret_moral_density` is a total function on ratios mapping r
to `very_high` iff r ≥ 1.0, `high` iff 0.5 ≤ r < 1.0, `moderate` iff
0.2 ≤ r < 0.5, `low` iff 0.1 ≤ r < 0.2, `very_low` iff r < 0.1, exactly at
the stated thresholds. -/
theorem interpretMoralDensity_bands (r : ℚ) :
    (interpretMoralDensity r = "very_high_moral_content" ↔ 1 ≤ r)
    ∧ (interpretMoralDensity r = "high_moral_content" ↔ 5/10 ≤ r ∧ r < 1)
    ∧ (interpretMoralDensity r = "moderate_moral_content" ↔ 2/10 ≤ r ∧ r < 5/10)
    ∧ (interpretMoralDensity r = "low_moral_content" ↔ 1/10 ≤ r ∧ r < 2/10)
    ∧ (interpretMoralDensity r = "very_low_moral_content" ↔ r < 1/10) := by
  refine ⟨?_, ?_, ?_, ?_, ?_⟩ <;>
    (unfold interpretMoralDensity; split_ifs <;> simp_all <;> intros <;> linarith)

/-- C10: for every score record and every dict_type string, recognized or
not, `get_moral_summary` returns a dict containing `dictionary_used` equal
to the dict_type argument and `moral_foundations` mapped to a (possibly
empty) dict; the embedded function is total, matching the absence of any
raising path in the source. -/
theorem getMoralSummary_base_keys (scores : List (String × ℚ)) (dict_type : String) :
    List.lookup "dictionary_used" (getMoralSummary scores dict_type)
      = some (SummaryValue.str dict_type)
    ∧ ∃ m, List.lookup "moral_foundations" (getMoralSummary scores dict_type)
      = some (SummaryValue.founds m) := by
  unfold getMoralSummary
  split_ifs <;> simp [List.lookup]

/-- C9: for a path that does not exist, `extract_text` fails with
`FileNotFoundError`, whatever the registered extractors are — no extractor
is consulted. -/
theorem extractText_fileNotFound (fsExists : String → Bool)
    (extractors : List Extractor) (path : String) (h : fsExists path = false) :
    extractText fsExists extractors path
      = Except.error (ExtractionError.fileNotFound path) := by
  simp [extractText, h]

/-- C9 witness: a concrete missing path fails with `FileNotFoundError`. -/
theorem extractText_fileNotFound_witness :
    extractText (fun _ => false) [] "missing.txt"
      = Except.error (ExtractionError.fileNotFound "missing.txt") :=
  extractText_fileNotFound (fun _ => false) [] "missing.txt" rfl

/-- C1: `analyze_batch` returns one entry per input path, in order (the
result list has the same length and entry i is determined by path i alone):
a path whose analysis fails yields an error entry in its own slot, every
other path yields its analysis result — one failure never disturbs the
other slots. -/
theorem analyzeBatch_contract {α : Type} (af : String → Except String α)
    (paths : List String) :
    (analyzeBatch af paths).length = paths.length
    ∧ (∀ (i : ℕ) p e, paths[i]? = some p → af p = Except.error e →
        (analyzeBatch af paths)[i]? = some (BatchEntry.err p e))
    ∧ (∀ (i : ℕ) p v, paths[i]? = some p → af p = Except.ok v →
        (analyzeBatch af paths)[i]? = some (BatchEntry.ok v)) := by
  refine ⟨List.length_map _ _, ?_, ?_⟩ <;>
  · intro i p x hp ha
    simp [analyzeBatch, List.getElem?_map, hp, ha]

/-- Demo per-file analysis oracle used to witness the batch contract:
fails on one path, succeeds elsewhere. -/
def batchDemoAf : String → Except String Nat :=
  fun p => if p = "bad.txt" then Except.error "boom" else Except.ok 7

/-- C1 witness: in a concrete two-path batch whose second path fails, the
second slot carries the error entry while the first carries its result. -/
theorem analyzeBatch_contract_witness :
    (analyzeBatch batchDemoAf ["good.txt", "bad.txt"])[1]?
        = some (BatchEntry.err "bad.txt" "boom")
    ∧ (analyzeBatch batchDemoAf ["good.txt", "bad.txt"])[0]?
        = some (BatchEntry.ok 7) :=
  ⟨(analyzeBatch_contract batchDemoAf ["good.txt", "bad.txt"]).2.1 1 "bad.txt" "boom"
      rfl (by simp [batchDemoAf]),
   (analyzeBatch_contract batchDemoAf ["good.txt", "bad.txt"]).2.2 0 "good.txt" 7
      rfl (by simp [batchDemoAf])⟩

/-- C6 counterexample: on a document whose every token is in the lexicon,
the denominator is 0, so the ratio is defined as 0 even though one token
matched — refuting "equals 0 exactly when zero lexicon tokens match". -/
theorem moralNonmoralRatio_counterexample :
    ¬ (moralNonmoralRatio ["care"] ["care"] = 0
        ↔ countMatched ["care"] ["care"] = 0) := by
  decide

/-- C6 amended: the ratio equals matched/unmatched whenever some token is
unmatched, is always ≥ 0, never divides by zero (it is defined as 0 when
the denominator is 0), and equals 0 exactly when zero lexicon tokens match
or zero tokens are unmatched. -/
theorem moralNonmoralRatio_contract (lexicon doc : List String) :
    0 ≤ moralNonmoralRatio lexicon doc
    ∧ (moralNonmoralRatio lexicon doc = 0 ↔
        countMatched lexicon doc = 0 ∨ countUnmatched lexicon doc = 0)
    ∧ (countUnmatched lexicon doc ≠ 0 →
        moralNonmoralRatio lexicon doc
          = (countMatched lexicon doc : ℚ) / (countUnmatched lexicon doc : ℚ)) := by
  unfold moralNonmoralRatio
  by_cases h : countUnmatched lexicon doc = 0
  · simp [h]
  · rw [if_neg h]
    refine ⟨by positivity, ?_, fun _ => rfl⟩
    rw [div_eq_zero_iff]
    simp [h]

/-- C6 witness: a concrete document with one matched and one unmatched
token has ratio 1/1. -/
theorem moralNonmoralRatio_contract_witness :
    moralNonmoralRatio ["care"] ["care", "verdict"]
      = (countMatched ["care"] ["care", "verdict"] : ℚ)
        / (countUnmatched ["care"] ["care", "verdict"] : ℚ) :=
  (moralNonmoralRatio_contract ["care"] ["care", "verdict"]).2.2 (by decide)

/-- Stripping leaves the empty list exactly when every character is
whitespace. -/
lemma pyStripList_eq_nil_iff (l : List Char) :
    pyStripList l = [] ↔ ∀ c ∈ l, pyIsSpace c := by
  unfold pyStripList
  rw [List.reverse_eq_nil_iff, List.dropWhile_eq_nil_iff]
  constructor
  · intro h c hc
    have hsplit := List.takeWhile_append_dropWhile (p := pyIsSpace) (l := l)
    rw [← hsplit] at hc
    rcases List.mem_append.1 hc with htk | hdr
    · exact List.mem_takeWhile_imp htk
    · exact h c (List.mem_reverse.2 hdr)
  · intro h c hc
    exact h c (List.dropWhile_subset _ (List.mem_reverse.1 hc))

/-- Python `text.strip()` is falsy exactly when the text is empty or
whitespace-only. -/
lemma pyStrip_eq_empty_iff (s : String) :
    pyStrip s = "" ↔ s.data.all pyIsSpace := by
  rw [show (pyStrip s = "") ↔ ((pyStrip s).data = ("" : String).data) from String.ext_iff]
  show pyStripList s.data = [] ↔ _
  rw [pyStripList_eq_nil_iff, List.all_eq_true]

/-- C3: `analyze_text` fails with the empty-input error exactly when the
input is empty or whitespace-only, for every dictionary type and every
behaviour of the downstream scoring pipeline; no non-empty, non-whitespace
input ever triggers that error. -/
theorem analyzeText_invalidInput_iff
    (scorer : String → String → Except String (List (String × ℚ)))
    (text dict_type : String) :
    analyzeText scorer text dict_type = Except.error AnalysisError.invalidInput
      ↔ text.data.all pyIsSpace := by
  unfold analyzeText
  by_cases h : pyStrip text = ""
  · simp only [if_pos h, true_iff]
    exact (pyStrip_eq_empty_iff text).1 h
  · rw [if_neg h]
    rw [← pyStrip_eq_empty_iff]
    simp only [h, iff_false]
    cases scorer text dict_type <;> simp

/-- C2 counterexample: on a score record with every required key absent,
`get_moral_summary` for the emfd dictionary does not fail at all — it
returns a bare summary with an empty `moral_foundations` dict and no
`dominant_foundation` entry, signalling nothing. -/
theorem getMoralSummary_missing_counterexample :
    getMoralSummary [] "emfd"
      = [("dictionary_used", SummaryValue.str "emfd"),
         ("moral_foundations", SummaryValue.founds [])] := by
  rfl

/-- C2 amended: when the probability, sentiment and ratio keys required
for the requested dictionary type are absent, `get_moral_summary` does not
fail; it silently returns the bare summary, omitting every derived field
without signalling the absence. -/
theorem getMoralSummary_silent_omission
    (scores : List (String × ℚ)) (dict_type : String)
    (hp : ∀ f ∈ foundations, List.lookup (f ++ "_p") scores = none)
    (hs : ∀ f ∈ foundations, List.lookup (f ++ "_sent") scores = none)
    (hr : List.lookup "moral_nonmoral_ratio" scores = none)
    (hm : ∀ f ∈ mfdFoundationKeys, List.lookup f scores = none) :
    getMoralSummary scores dict_type
      = [("dictionary_used", SummaryValue.str dict_type),
         ("moral_foundations", SummaryValue.founds [])] := by
  have h1 := hp "care" (by simp [foundations])
  have h2 := hp "fairness" (by simp [foundations])
  have h3 := hp "loyalty" (by simp [foundations])
  have h4 := hp "authority" (by simp [foundations])
  have h5 := hp "sanctity" (by simp [foundations])
  have h6 := hs "care" (by simp [foundations])
  have h7 := hs "fairness" (by simp [foundations])
  have h8 := hs "loyalty" (by simp [foundations])
  have h9 := hs "authority" (by simp [foundations])
  have h10 := hs "sanctity" (by simp [foundations])
  have m1 := hm "care.virtue" (by simp [mfdFoundationKeys])
  have m2 := hm "fairness.virtue" (by simp [mfdFoundationKeys])
  have m3 := hm "loyalty.virtue" (by simp [mfdFoundationKeys])
  have m4 := hm "authority.virtue" (by simp [mfdFoundationKeys])
  have m5 := hm "sanctity.virtue" (by simp [mfdFoundationKeys])
  have m6 := hm "care.vice" (by simp [mfdFoundationKeys])
  have m7 := hm "fairness.vice" (by simp [mfdFoundationKeys])
  have m8 := hm "loyalty.vice" (by simp [mfdFoundationKeys])
  have m9 := hm "authority.vice" (by simp [mfdFoundationKeys])
  have m10 := hm "sanctity.vice" (by simp [mfdFoundationKeys])
  have hd : densityEntry scores = [] := by
    unfold densityEntry
    rw [hr]
  have hpe : emfdFoundations scores = [] := by
    simp only [emfdFoundations, foundations, List.filterMap_cons, List.filterMap_nil,
      h1, h2, h3, h4, h5, h6, h7, h8, h9, h10]
    simp
  have hps : probScores scores = [] := by
    simp only [probScores, foundations, List.filterMap_cons, List.filterMap_nil,
      h1, h2, h3, h4, h5]
    simp
  have hmf : mfdFoundations scores = [] := by
    simp only [mfdFoundations, mfdFoundationKeys, List.filterMap_cons, List.filterMap_nil,
      m1, m2, m3, m4, m5, m6, m7, m8, m9, m10]
    simp
  unfold getMoralSummary
  split_ifs with he hmfd
  · simp [hpe, hps, hd, dominantEntry, pyMaxBy]
  · simp [hmf, hd]
  · rfl

/-- C2 witness: a score record holding only an unrelated key yields the
bare summary for the emfd dictionary. -/
theorem getMoralSummary_silent_omission_witness :
    getMoralSummary [("unrelated", 5)] "emfd"
      = [("dictionary_used", SummaryValue.str "emfd"),
         ("moral_foundations", SummaryValue.founds [])] :=
  getMoralSummary_silent_omission [("unrelated", 5)] "emfd"
    (by decide) (by decide) (by decide) (by decide)

/-- The dominant-foundation selection as the spec words it: the foundation
with the numerically highest probability field, ties broken by the
first-listed foundation in the canonical order care, fairness, loyalty,
authority, sanctity — i.e. the first foundation whose probability is ≥ all
later ones, paired with its probability. -/
def specDominantFoundation (vc vf vl va vs : ℚ) : String × ℚ :=
  if vc ≥ vf ∧ vc ≥ vl ∧ vc ≥ va ∧ vc ≥ vs then ("care", vc)
  else if vf ≥ vl ∧ vf ≥ va ∧ vf ≥ vs then ("fairness", vf)
  else if vl ≥ va ∧ vl ≥ vs then ("loyalty", vl)
  else if va ≥ vs then ("authority", va)
  else ("sanctity", vs)

/-- Python `max` over the five foundations agrees with the spec's argmax
with first-listed tie-breaking. -/
lemma pyMaxBy_five (vc vf vl va vs : ℚ) :
    pyMaxBy [("care", vc), ("fairness", vf), ("loyalty", vl),
             ("authority", va), ("sanctity", vs)]
      = some (specDominantFoundation vc vf vl va vs) := by
  unfold pyMaxBy specDominantFoundation
  simp only [List.foldl]
  split_ifs <;> simp_all <;> intros <;> linarith

/-- C5: for every eMFD score record containing the five probability
fields, the summary's `dominant_foundation` names the foundation with the
numerically highest probability (ties broken by the first-listed
foundation in canonical order) and reports exactly that foundation's
probability value. -/
theorem dominantFoundation_argmax (scores : List (String × ℚ)) (vc vf vl va vs : ℚ)
    (hc : List.lookup "care_p" scores = some vc)
    (hf : List.lookup "fairness_p" scores = some vf)
    (hl : List.lookup "loyalty_p" scores = some vl)
    (ha : List.lookup "authority_p" scores = some va)
    (hs : List.lookup "sanctity_p" scores = some vs) :
    List.lookup "dominant_foundation" (getMoralSummary scores "emfd")
      = some (SummaryValue.dominant (specDominantFoundation vc vf vl va vs).1
          (specDominantFoundation vc vf vl va vs).2) := by
  have hps : probScores scores
      = [("care", vc), ("fairness", vf), ("loyalty", vl),
         ("authority", va), ("sanctity", vs)] := by
    simp only [probScores, foundations, List.filterMap_cons, List.filterMap_nil]
    simp [hc, hf, hl, ha, hs]
  have hde : dominantEntry scores
      = [("dominant_foundation",
          SummaryValue.dominant (specDominantFoundation vc vf vl va vs).1
            (specDominantFoundation vc vf vl va vs).2)] := by
    unfold dominantEntry
    rw [hps, pyMaxBy_five]
  unfold getMoralSummary
  rw [if_pos rfl]
  simp [List.lookup, hde]

/-- Demo score record used to witness the dominant-foundation claim:
fairness and loyalty tie for the highest probability. -/
def dominantDemoScores : List (String × ℚ) :=
  [("care_p", 1), ("fairness_p", 3), ("loyalty_p", 3),
   ("authority_p", 2), ("sanctity_p", 0)]

/-- C5 witness: on a concrete record where fairness and loyalty tie at the
top, the summary reports fairness (first in canonical order) with its
probability. -/
theorem dominantFoundation_argmax_witness :
    List.lookup "dominant_foundation" (getMoralSummary dominantDemoScores "emfd")
      = some (SummaryValue.dominant "fairness" 3) := by
  have h := dominantFoundation_argmax dominantDemoScores 1 3 3 2 0 rfl rfl rfl rfl rfl
  simpa [specDominantFoundation] using h

/-- The extractor loop fails exactly when every registered extractor
either does not support the file or fails on it. -/
lemma extractTextLoop_error_iff (l : List Extractor) (path : String) :
    extractTextLoop l path = Except.error (ExtractionError.noSuitableExtractor path)
      ↔ ∀ e ∈ l, e.supports path = true → ∀ t, e.extract path ≠ Except.ok t := by
  induction l with
  | nil => simp [extractTextLoop]
  | cons e rest ih =>
    unfold extractTextLoop
    by_cases hsup : e.supports path = true
    · rw [if_pos hsup]
      cases hex : e.extract path with
      | ok t => simp [hex, hsup, List.forall_mem_cons]
      | error m => simp [hex, hsup, List.forall_mem_cons, ih]
    · rw [if_neg hsup]
      simp only [List.forall_mem_cons, ih]
      simp [hsup]

/-- The extractor loop returns the text of the first extractor that both
supports the file and succeeds, skipping earlier extractors that do not
support it or fail. -/
lemma extractTextLoop_firstWins (pre post : List Extractor) (e : Extractor)
    (path t : String) (hsup : e.supports path = true)
    (hok : e.extract path = Except.ok t)
    (hpre : ∀ e2 ∈ pre, e2.supports path = true → ∀ u, e2.extract path ≠ Except.ok u) :
    extractTextLoop (pre ++ e :: post) path = Except.ok t := by
  induction pre with
  | nil =>
    rw [List.nil_append]
    unfold extractTextLoop
    simp [hsup, hok]
  | cons e2 rest ih =>
    have h2 := hpre e2 (List.mem_cons_self e2 rest)
    have hrest : ∀ e3 ∈ rest, e3.supports path = true → ∀ u, e3.extract path ≠ Except.ok u :=
      fun e3 h3 => hpre e3 (List.mem_cons_of_mem e2 h3)
    rw [List.cons_append]
    unfold extractTextLoop
    by_cases hs2 : e2.supports path = true
    · rw [if_pos hs2]
      cases hex : e2.extract path with
      | ok u => exact absurd hex (h2 hs2 u)
      | error m => exact ih hrest
    · rw [if_neg hs2]
      exact ih hrest

/-- The encoding-fallback loop fails exactly when every listed encoding
fails to decode the file. -/
lemma tryEncodings_error_iff (read : String → String → Except Unit String)
    (path : String) (encs : List String) :
    (∃ msg, tryEncodings read path encs = Except.error msg)
      ↔ ∀ enc ∈ encs, ∀ s, read path enc ≠ Except.ok s := by
  induction encs with
  | nil => simp [tryEncodings]
  | cons enc rest ih =>
    unfold tryEncodings
    cases hr : read path enc with
    | ok s => simp [hr, List.forall_mem_cons]
    | error u => simp [hr, List.forall_mem_cons, ih]

/-- C7: for an existing file, `extract_text` queries the registered
extractors in order and returns the result of the first one that claims
support for the file and succeeds; it fails exactly when no extractor
claims support or every supporting extractor fails; and the plain-text
extractor fails only after trying its requested encoding and every
codepage fallback. -/
theorem extractText_contract :
    (∀ (fsExists : String → Bool) (l : List Extractor) (path : String),
        fsExists path = true →
        (extractText fsExists l path
            = Except.error (ExtractionError.noSuitableExtractor path)
          ↔ ∀ e ∈ l, e.supports path = true → ∀ t, e.extract path ≠ Except.ok t))
    ∧ (∀ (fsExists : String → Bool) (pre post : List Extractor) (e : Extractor)
          (path t : String),
        fsExists path = true → e.supports path = true →
        e.extract path = Except.ok t →
        (∀ e2 ∈ pre, e2.supports path = true → ∀ u, e2.extract path ≠ Except.ok u) →
        extractText fsExists (pre ++ e :: post) path = Except.ok t)
    ∧ (∀ (read : String → String → Except Unit String) (path encoding : String),
        (∃ msg, txtExtract read path encoding = Except.error msg)
          ↔ ((∀ s, read path encoding ≠ Except.ok s)
              ∧ ∀ enc ∈ txtFallbackEncodings, ∀ s, read path enc ≠ Except.ok s)) := by
  refine ⟨?_, ?_, ?_⟩
  · intro fsExists l path hex
    rw [extractText, if_pos hex]
    exact extractTextLoop_error_iff l path
  · intro fsExists pre post e path t hex hsup hok hpre
    rw [extractText, if_pos hex]
    exact extractTextLoop_firstWins pre post e path t hsup hok hpre
  · intro read path encoding
    unfold txtExtract
    cases hr : read path encoding with
    | ok s => simp [hr]
    | error u => simp [hr, tryEncodings_error_iff]

/-- Demo extractor that supports everything but always fails, used to
witness the first-wins contract. -/
def demoFailingExtractor : Extractor :=
  { supports := fun _ => true, extract := fun _ => Except.error "parse failure" }

/-- Demo extractor that succeeds on .txt paths, used to witness the
first-wins contract. -/
def demoTxtExtractor : Extractor :=
  { supports := fun p => p == "doc.txt", extract := fun _ => Except.ok "hello" }

/-- C7 witness: with a supporting-but-failing extractor registered first,
extraction of an existing file returns the second extractor's text. -/
theorem extractText_contract_witness :
    extractText (fun _ => true) [demoFailingExtractor, demoTxtExtractor] "doc.txt"
      = Except.ok "hello" :=
  extractText_contract.2.1 (fun _ => true) [demoFailingExtractor] [] demoTxtExtractor
    "doc.txt" "hello" rfl (by decide) rfl
    (by
      intro e2 h2 hs u
      rw [List.mem_singleton.1 h2]
      simp [demoFailingExtractor])

end Emfdscore
